import Mathlib

/-!
Verification of the credential-broker commands of `src/src-tauri/src/commands.rs`.

The broker is a stateless facade over the OS keystore (keyring crate).  The
keystore itself is an external collaborator; following the spec, it is modelled
as an association list from keys to values (at most one value per key within
the fixed service namespace) together with a fault model that injects the
non-`NoEntry` backend failures ("unexpected backend failures") the spec's error
taxonomy describes.  The six Tauri commands are translated from the Rust source
one match arm at a time.
-/

/-- Errors reported by the keyring backend: `NoEntry` (the key has no stored
value) versus any other backend failure, which carries its display text. -/
inductive KeyringError where
  | noEntry : KeyringError
  | other : String → KeyringError

/-- Display text of a keyring error, as interpolated by the Rust `format!`
calls (`{}` uses the error's `Display` implementation). -/
def KeyringError.display : KeyringError → String
  | KeyringError.noEntry => "No matching entry found in secure storage"
  | KeyringError.other msg => msg

/-- Modelled from the spec: the OS keystore state under the fixed service
namespace, an association of keys to values with at most one value per key. -/
abbrev Store := List (String × String)

/-- Value stored for a key, if any (first matching entry). -/
def kLookup : Store → String → Option String
  | [], _ => none
  | (k, v) :: rest, key => if k = key then some v else kLookup rest key

/-- Store a value under a key, overwriting any existing value (last-write-wins,
as the spec's lifecycle section describes). -/
def kSet : Store → String → String → Store
  | [], key, value => [(key, value)]
  | (k, v) :: rest, key, value =>
      if k = key then (k, value) :: rest else (k, v) :: kSet rest key value

/-- Remove every entry stored under a key. -/
def kRemove : Store → String → Store
  | [], _ => []
  | (k, v) :: rest, key =>
      if k = key then kRemove rest key else (k, v) :: kRemove rest key

/-- Modelled from the spec: injectable backend failures.  Each field gives, for
one keyring primitive, the display text of the non-`NoEntry` error the backend
reports, or `none` when the primitive behaves normally.  `setFault` may observe
the value being written, so that value-independence of the broker's error
messages is a statement about the broker and not about the model. -/
structure FaultModel where
  newFault : String → Option String
  setFault : String → String → Option String
  getFault : String → Option String
  delFault : String → Option String

/-- Modelled from the spec: `Entry::new(SERVICE_NAME, &key)`, which fails (a
construction error) exactly when the fault model says so. -/
def ksNewEntry (F : FaultModel) (key : String) : Except KeyringError Unit :=
  match F.newFault key with
  | some m => Except.error (KeyringError.other m)
  | none => Except.ok ()

/-- Modelled from the spec: `entry.get_password()`.  A faulted backend reports
its error; otherwise a stored value is returned and an absent key reports
`NoEntry`. -/
def ksGet (F : FaultModel) (s : Store) (key : String) : Except KeyringError String :=
  match F.getFault key with
  | some m => Except.error (KeyringError.other m)
  | none =>
    match kLookup s key with
    | some v => Except.ok v
    | none => Except.error KeyringError.noEntry

/-- Modelled from the spec: `entry.set_password(&value)`.  A faulted backend
reports its error and leaves the store unchanged; otherwise the value is
stored, overwriting any previous value. -/
def ksSet (F : FaultModel) (s : Store) (key value : String) : Except KeyringError Store :=
  match F.setFault key value with
  | some m => Except.error (KeyringError.other m)
  | none => Except.ok (kSet s key value)

/-- Modelled from the spec: `entry.delete_credential()`.  A faulted backend
reports its error; otherwise a present key is removed and an absent key
reports `NoEntry`. -/
def ksDelete (F : FaultModel) (s : Store) (key : String) : Except KeyringError Store :=
  match F.delFault key with
  | some m => Except.error (KeyringError.other m)
  | none =>
    match kLookup s key with
    | some _ => Except.ok (kRemove s key)
    | none => Except.error KeyringError.noEntry

/-- `store_credential` from `commands.rs`: create the entry, then
`set_password`, formatting each failure.  The store that results from the
keystore side effect is returned alongside the Rust function's result. -/
def store_credential (F : FaultModel) (s : Store) (key value : String) :
    Except String Unit × Store :=
  match ksNewEntry F key with
  | Except.error e =>
      (Except.error (("Failed to create keyring entry: ") ++ e.display), s)
  | Except.ok _ =>
    match ksSet F s key value with
    | Except.error e =>
        (Except.error
          (("Failed to store credential \x27") ++ key ++ ("\x27: ") ++ e.display), s)
    | Except.ok s2 => (Except.ok (), s2)

/-- `get_credential` from `commands.rs`: create the entry, then classify
`get_password` into found / `NoEntry` / other error exactly as the Rust match
does.  Reading does not change the store. -/
def get_credential (F : FaultModel) (s : Store) (key : String) :
    Except String (Option String) :=
  match ksNewEntry F key with
  | Except.error e =>
      Except.error (("Failed to create keyring entry: ") ++ e.display)
  | Except.ok _ =>
    match ksGet F s key with
    | Except.ok password => Except.ok (some password)
    | Except.error KeyringError.noEntry => Except.ok none
    | Except.error e =>
        Except.error
          (("Failed to retrieve credential \x27") ++ key ++ ("\x27: ") ++ e.display)

/-- `delete_credential` from `commands.rs`: create the entry, then classify
`delete_credential` into deleted / `NoEntry` / other error exactly as the Rust
match does. -/
def delete_credential (F : FaultModel) (s : Store) (key : String) :
    Except String Bool × Store :=
  match ksNewEntry F key with
  | Except.error e =>
      (Except.error (("Failed to create keyring entry: ") ++ e.display), s)
  | Except.ok _ =>
    match ksDelete F s key with
    | Except.ok s2 => (Except.ok true, s2)
    | Except.error KeyringError.noEntry => (Except.ok false, s)
    | Except.error e =>
        (Except.error
          (("Failed to delete credential \x27") ++ key ++ ("\x27: ") ++ e.display), s)

/-- Loop body of `store_credentials_batch`: `count` is the Rust `count`
accumulator, and the store is threaded through the keystore side effects. -/
def storeBatchGo (F : FaultModel) : Store → Nat → List (String × String) →
    Except String Nat × Store
  | s, count, [] => (Except.ok count, s)
  | s, count, (key, value) :: rest =>
    match ksNewEntry F key with
    | Except.error e =>
        (Except.error (("Failed to create keyring entry: ") ++ e.display), s)
    | Except.ok _ =>
      match ksSet F s key value with
      | Except.error e =>
          (Except.error
            (("Failed to store credential \x27") ++ key ++ ("\x27: ") ++ e.display), s)
      | Except.ok s2 => storeBatchGo F s2 (count + 1) rest

/-- `store_credentials_batch` from `commands.rs`. -/
def store_credentials_batch (F : FaultModel) (s : Store)
    (credentials : List (String × String)) : Except String Nat × Store :=
  storeBatchGo F s 0 credentials

/-- Loop body of `get_credentials_batch`: `acc` is the Rust `result` map,
modelled as an association list with `serde_json::Map::insert` replacement
semantics (`kSet`). -/
def getBatchGo (F : FaultModel) (s : Store) : Store → List String →
    Except String Store
  | acc, [] => Except.ok acc
  | acc, key :: rest =>
    match ksNewEntry F key with
    | Except.error e =>
        Except.error (("Failed to create keyring entry: ") ++ e.display)
    | Except.ok _ =>
      match ksGet F s key with
      | Except.ok password => getBatchGo F s (kSet acc key password) rest
      | Except.error KeyringError.noEntry => getBatchGo F s acc rest
      | Except.error e =>
          Except.error
            (("Failed to retrieve credential \x27") ++ key ++ ("\x27: ") ++ e.display)

/-- `get_credentials_batch` from `commands.rs`. -/
def get_credentials_batch (F : FaultModel) (s : Store) (keys : List String) :
    Except String Store :=
  getBatchGo F s [] keys

/-- Loop body of `delete_credentials_batch`. -/
def deleteBatchGo (F : FaultModel) : Store → Nat → List String →
    Except String Nat × Store
  | s, count, [] => (Except.ok count, s)
  | s, count, key :: rest =>
    match ksNewEntry F key with
    | Except.error e =>
        (Except.error (("Failed to create keyring entry: ") ++ e.display), s)
    | Except.ok _ =>
      match ksDelete F s key with
      | Except.ok s2 => deleteBatchGo F s2 (count + 1) rest
      | Except.error KeyringError.noEntry => deleteBatchGo F s count rest
      | Except.error e =>
          (Except.error
            (("Failed to delete credential \x27") ++ key ++ ("\x27: ") ++ e.display), s)

/-- `delete_credentials_batch` from `commands.rs`. -/
def delete_credentials_batch (F : FaultModel) (s : Store) (keys : List String) :
    Except String Nat × Store :=
  deleteBatchGo F s 0 keys

/-- Fault model of a fully healthy backend. -/
def noFaults : FaultModel :=
  { newFault := fun _ => none
    setFault := fun _ _ => none
    getFault := fun _ => none
    delFault := fun _ => none }

/-- Error message of a result, if it is an error. -/
def errMsg {α : Type} : Except String α → Option String
  | Except.ok _ => none
  | Except.error m => some m

/-- Whether a result is a success. -/
def resOk {α : Type} : Except String α → Bool
  | Except.ok _ => true
  | Except.error _ => false

/-- One string occurs inside another (contiguously, at the character level). -/
def occursIn (pat msg : String) : Prop :=
  ∃ a b, msg.data = a ++ pat.data ++ b

theorem kLookup_kSet_self (s : Store) (key value : String) :
    kLookup (kSet s key value) key = some value := by
  induction s with
  | nil => simp [kSet, kLookup]
  | cons hd tl ih =>
    obtain ⟨k, v⟩ := hd
    by_cases h : k = key
    · simp [kSet, kLookup, h]
    · simp [kSet, kLookup, h, ih]

theorem kLookup_kSet_other (s : Store) (key value k2 : String) (h : k2 ≠ key) :
    kLookup (kSet s key value) k2 = kLookup s k2 := by
  induction s with
  | nil => simp [kSet, kLookup, Ne.symm h]
  | cons hd tl ih =>
    obtain ⟨k, v⟩ := hd
    by_cases hk : k = key
    · subst hk
      simp [kSet, kLookup, Ne.symm h]
    · simp [kSet, kLookup, hk, ih]

theorem kLookup_kRemove_self (s : Store) (key : String) :
    kLookup (kRemove s key) key = none := by
  induction s with
  | nil => simp [kRemove, kLookup]
  | cons hd tl ih =>
    obtain ⟨k, v⟩ := hd
    by_cases h : k = key
    · simp [kRemove, h, ih]
    · simp [kRemove, kLookup, h, ih]

theorem kLookup_kRemove_other (s : Store) (key k2 : String) (h : k2 ≠ key) :
    kLookup (kRemove s key) k2 = kLookup s k2 := by
  induction s with
  | nil => simp [kRemove]
  | cons hd tl ih =>
    obtain ⟨k, v⟩ := hd
    by_cases hk : k = key
    · subst hk
      simp [kRemove, kLookup, Ne.symm h, ih]
    · simp [kRemove, kLookup, hk, ih]

/-- C1: `get_credential` returns `Ok (some value)` for a stored key and
`Ok none` for an absent key whenever the backend raises no fault for the key,
and it returns `Err` exactly when the backend fails for a reason other than
absence (entry construction or `get_password` fault), so the not-found and
backend-error outcomes are never conflated. -/
theorem get_credential_classification (F : FaultModel) (s : Store) (key : String) :
    (F.newFault key = none → F.getFault key = none →
      get_credential F s key = Except.ok (kLookup s key)) ∧
    (resOk (get_credential F s key) = true ↔
      F.newFault key = none ∧ F.getFault key = none) := by
  unfold get_credential ksNewEntry ksGet
  cases hn : F.newFault key <;> cases hg : F.getFault key <;>
    cases hl : kLookup s key <;> simp [hl, resOk]

/-- Witness for C1 at a concrete healthy backend: a stored key reads back as
`Ok (some value)`. -/
theorem get_credential_classification_witness :
    get_credential noFaults [(("k"), ("v"))] ("k") =
      Except.ok (kLookup [(("k"), ("v"))] ("k")) :=
  (get_credential_classification noFaults [(("k"), ("v"))] ("k")).1 rfl rfl

/-- C4: `delete_credential` returns `Ok true` and removes the value when the
key is present, `Ok false` when the key is absent (not an error), errors
exactly when the backend faults, and deleting twice in a row on a stored key
returns `true` then `false`. -/
theorem delete_credential_classification (F : FaultModel) (s : Store) (key : String) :
    (F.newFault key = none → F.delFault key = none →
      (∀ v, kLookup s key = some v →
        delete_credential F s key = (Except.ok true, kRemove s key) ∧
        delete_credential F (kRemove s key) key =
          (Except.ok false, kRemove s key)) ∧
      (kLookup s key = none →
        delete_credential F s key = (Except.ok false, s))) ∧
    (resOk (delete_credential F s key).1 = true ↔
      F.newFault key = none ∧ F.delFault key = none) := by
  unfold delete_credential ksNewEntry ksDelete
  cases hn : F.newFault key <;> cases hd : F.delFault key <;>
    cases hl : kLookup s key <;>
    simp [hl, resOk, kLookup_kRemove_self]

/-- Witness for C4 at a concrete healthy backend: deleting a stored key twice
returns `true` then `false`. -/
theorem delete_credential_classification_witness :
    delete_credential noFaults [(("k"), ("v"))] ("k") =
      (Except.ok true, kRemove [(("k"), ("v"))] ("k")) ∧
    delete_credential noFaults (kRemove [(("k"), ("v"))] ("k")) ("k") =
      (Except.ok false, kRemove [(("k"), ("v"))] ("k")) :=
  ((delete_credential_classification noFaults [(("k"), ("v"))] ("k")).1
    rfl rfl).1 ("v") rfl

/-- C10: on the empty input sequence each batch command performs no keystore
access, so for every fault model (even a completely unreachable backend) and
every store it returns `Ok 0`, the empty mapping, and `Ok 0` respectively,
leaving the store untouched. -/
theorem batch_empty_input (F : FaultModel) (s : Store) :
    store_credentials_batch F s [] = (Except.ok 0, s) ∧
    get_credentials_batch F s [] = Except.ok [] ∧
    delete_credentials_batch F s [] = (Except.ok 0, s) :=
  ⟨rfl, rfl, rfl⟩

theorem occursIn_append_left (pat tail : String) :
    occursIn pat (pat ++ tail) := by
  exact ⟨[], tail.data, by simp [String.data_append]⟩

theorem occursIn_between (a pat b : String) :
    occursIn pat (a ++ pat ++ b) := by
  exact ⟨a.data, b.data, by simp [String.data_append]⟩

theorem occursIn_mem (pat msg : String) (h : occursIn pat msg) (c : Char)
    (hc : c ∈ pat.data) : c ∈ msg.data := by
  obtain ⟨a, b, hab⟩ := h
  rw [hab]
  simp [hc]

/-- C7: when the backend raises no fault for the key, `store_credential`
succeeds and stores the value, and a subsequent `get_credential` on the
resulting keystore returns `Ok (some value)`. -/
theorem store_then_get_roundtrip (F : FaultModel) (s : Store) (key value : String)
    (hn : F.newFault key = none) (hs : F.setFault key value = none)
    (hg : F.getFault key = none) :
    store_credential F s key value = (Except.ok (), kSet s key value) ∧
    get_credential F (kSet s key value) key = Except.ok (some value) := by
  constructor
  · simp [store_credential, ksNewEntry, ksSet, hn, hs]
  · simp [get_credential, ksNewEntry, ksGet, hn, hg, kLookup_kSet_self]

/-- Witness for C7 on a healthy backend, an empty keystore and a concrete
key and value. -/
theorem store_then_get_roundtrip_witness :
    store_credential noFaults [] ("k") ("v") =
      (Except.ok (), kSet [] ("k") ("v")) ∧
    get_credential noFaults (kSet [] ("k") ("v")) ("k") =
      Except.ok (some ("v")) :=
  store_then_get_roundtrip noFaults [] ("k") ("v") rfl rfl rfl

/-- C8: storing twice under one key succeeds silently both times (overwrite is
not an error) and leaves only the second value retrievable for that key:
last-write-wins, no versioning. -/
theorem store_overwrite_last_wins (F : FaultModel) (s : Store) (key v1 v2 : String)
    (hn : F.newFault key = none) (h1 : F.setFault key v1 = none)
    (h2 : F.setFault key v2 = none) (hg : F.getFault key = none) :
    store_credential F s key v1 = (Except.ok (), kSet s key v1) ∧
    store_credential F (kSet s key v1) key v2 =
      (Except.ok (), kSet (kSet s key v1) key v2) ∧
    get_credential F (kSet (kSet s key v1) key v2) key =
      Except.ok (some v2) := by
  refine ⟨?_, ?_, ?_⟩
  · simp [store_credential, ksNewEntry, ksSet, hn, h1]
  · simp [store_credential, ksNewEntry, ksSet, hn, h2]
  · simp [get_credential, ksNewEntry, ksGet, hn, hg, kLookup_kSet_self]

/-- Witness for C8 with two distinct concrete values under one key. -/
theorem store_overwrite_last_wins_witness :
    store_credential noFaults [] ("k") ("v1") =
      (Except.ok (), kSet [] ("k") ("v1")) ∧
    store_credential noFaults (kSet [] ("k") ("v1")) ("k") ("v2") =
      (Except.ok (), kSet (kSet [] ("k") ("v1")) ("k") ("v2")) ∧
    get_credential noFaults (kSet (kSet [] ("k") ("v1")) ("k") ("v2")) ("k") =
      Except.ok (some ("v2")) :=
  store_overwrite_last_wins noFaults [] ("k") ("v1") ("v2") rfl rfl rfl rfl

/-- C9: the outcome of `store_credential` that the caller can observe as an
error message does not depend on the credential value: two runs with the same
key, the same keystore and the same backend behaviour at that key produce
identical error results, so the message never leaks the value. -/
theorem store_credential_error_value_independent (F : FaultModel) (s : Store)
    (key v1 v2 : String) (hfault : F.setFault key v1 = F.setFault key v2) :
    errMsg (store_credential F s key v1).1 =
      errMsg (store_credential F s key v2).1 := by
  cases hn : F.newFault key with
  | some m => simp [store_credential, ksNewEntry, hn, errMsg]
  | none =>
    cases hf : F.setFault key v1 with
    | some m =>
      have h2 : F.setFault key v2 = some m := by rw [← hfault, hf]
      simp [store_credential, ksNewEntry, ksSet, hn, hf, h2, errMsg]
    | none =>
      have h2 : F.setFault key v2 = none := by rw [← hfault, hf]
      simp [store_credential, ksNewEntry, ksSet, hn, hf, h2, errMsg]

/-- Fault model whose `set_password` always fails with a fixed message that
does not depend on the value being written. -/
def setDown : FaultModel :=
  { newFault := fun _ => none
    setFault := fun _ _ => some ("backend unavailable")
    getFault := fun _ => none
    delFault := fun _ => none }

/-- Witness for C9: a failing backend yields the same error message for two
different credential values. -/
theorem store_credential_error_value_independent_witness :
    errMsg (store_credential setDown [] ("k") ("v1")).1 =
      errMsg (store_credential setDown [] ("k") ("v2")).1 :=
  store_credential_error_value_independent setDown [] ("k") ("v1") ("v2") rfl

/-- Iterated `kSet`, the keystore state after storing a list of pairs in
sequence order. -/
def kSetAll (s : Store) (creds : List (String × String)) : Store :=
  creds.foldl (fun st p => kSet st p.1 p.2) s

/-- The backend raises no fault when storing the pair `p`. -/
def storeOkAt (F : FaultModel) (p : String × String) : Prop :=
  F.newFault p.1 = none ∧ F.setFault p.1 p.2 = none

theorem storeBatchGo_ok (F : FaultModel) (creds : List (String × String)) :
    ∀ s count, (∀ p ∈ creds, storeOkAt F p) →
    storeBatchGo F s count creds =
      (Except.ok (count + creds.length), kSetAll s creds) := by
  induction creds with
  | nil => intro s count _; simp [storeBatchGo, kSetAll]
  | cons hd tl ih =>
    intro s count h
    obtain ⟨key, value⟩ := hd
    obtain ⟨hn, hs⟩ := h _ (List.mem_cons_self _ _)
    have htl := ih (kSet s key value) (count + 1)
      (fun p hp => h p (List.mem_cons_of_mem _ hp))
    have harith : count + 1 + tl.length = count + (tl.length + 1) := by omega
    simp only [storeBatchGo, ksNewEntry, ksSet, hn, hs, htl, kSetAll,
      List.foldl_cons, List.length_cons, harith]

theorem storeBatchGo_err_set (F : FaultModel) (pre : List (String × String)) :
    ∀ s count key value post m, (∀ p ∈ pre, storeOkAt F p) →
    F.newFault key = none → F.setFault key value = some m →
    storeBatchGo F s count (pre ++ (key, value) :: post) =
      (Except.error
        (("Failed to store credential \x27") ++ key ++ ("\x27: ") ++ m),
       kSetAll s pre) := by
  induction pre with
  | nil =>
    intro s count key value post m _ hn hm
    simp [storeBatchGo, ksNewEntry, ksSet, hn, hm, kSetAll, KeyringError.display]
  | cons hd tl ih =>
    intro s count key value post m h hn hm
    obtain ⟨k0, v0⟩ := hd
    obtain ⟨hn0, hs0⟩ := h _ (List.mem_cons_self _ _)
    have htl := ih (kSet s k0 v0) (count + 1) key value post m
      (fun p hp => h p (List.mem_cons_of_mem _ hp)) hn hm
    simp only [List.cons_append, storeBatchGo, ksNewEntry, ksSet, hn0, hs0,
      kSetAll, List.foldl_cons]
    exact htl

theorem storeBatchGo_err_new (F : FaultModel) (pre : List (String × String)) :
    ∀ s count key value post m, (∀ p ∈ pre, storeOkAt F p) →
    F.newFault key = some m →
    storeBatchGo F s count (pre ++ (key, value) :: post) =
      (Except.error (("Failed to create keyring entry: ") ++ m),
       kSetAll s pre) := by
  induction pre with
  | nil =>
    intro s count key value post m _ hn
    simp [storeBatchGo, ksNewEntry, hn, kSetAll, KeyringError.display]
  | cons hd tl ih =>
    intro s count key value post m h hn
    obtain ⟨k0, v0⟩ := hd
    obtain ⟨hn0, hs0⟩ := h _ (List.mem_cons_self _ _)
    have htl := ih (kSet s k0 v0) (count + 1) key value post m
      (fun p hp => h p (List.mem_cons_of_mem _ hp)) hn
    simp only [List.cons_append, storeBatchGo, ksNewEntry, ksSet, hn0, hs0,
      kSetAll, List.foldl_cons]
    exact htl

/-- Fault model where constructing the keyring entry fails for every key. -/
def newDown : FaultModel :=
  { newFault := fun _ => some ("boom")
    setFault := fun _ _ => none
    getFault := fun _ => none
    delFault := fun _ => none }

/-- Counterexample to C2 as stated: when storing the single pair
`("zzz", "v")` fails because the keyring entry cannot be constructed,
`store_credentials_batch` returns an error in which the failing key `"zzz"`
does not occur, so the error does not identify the failing key. -/
theorem store_batch_error_key_counterexample :
    store_credentials_batch newDown [] [(("zzz"), ("v"))] =
      (Except.error ("Failed to create keyring entry: boom"), []) ∧
    ¬ occursIn ("zzz") ("Failed to create keyring entry: boom") := by
  constructor
  · rfl
  · intro h
    have hz := occursIn_mem ("zzz") ("Failed to create keyring entry: boom") h
      ('z') (by decide)
    revert hz
    decide

/-- C2 (amended): `store_credentials_batch` stores the pairs in sequence order
and is fail-fast without rollback.  With no backend fault it returns `Ok n`,
`n` the number of pairs, with the store updated by every pair in order.  At
the first failing pair, processing stops: every earlier pair is stored and no
later pair is stored; when `set_password` fails the error identifies the
failing key, while when the keyring entry cannot be constructed the error
carries only the backend text. -/
theorem store_credentials_batch_spec (F : FaultModel) (s : Store)
    (creds : List (String × String)) :
    ((∀ p ∈ creds, storeOkAt F p) →
      store_credentials_batch F s creds =
        (Except.ok creds.length, kSetAll s creds)) ∧
    (∀ pre key value post m, creds = pre ++ (key, value) :: post →
      (∀ p ∈ pre, storeOkAt F p) → F.newFault key = none →
      F.setFault key value = some m →
      store_credentials_batch F s creds =
        (Except.error
          (("Failed to store credential \x27") ++ key ++ ("\x27: ") ++ m),
         kSetAll s pre) ∧
      occursIn key
        (("Failed to store credential \x27") ++ key ++ ("\x27: ") ++ m)) ∧
    (∀ pre key value post m, creds = pre ++ (key, value) :: post →
      (∀ p ∈ pre, storeOkAt F p) → F.newFault key = some m →
      store_credentials_batch F s creds =
        (Except.error (("Failed to create keyring entry: ") ++ m),
         kSetAll s pre)) := by
  refine ⟨?_, ?_, ?_⟩
  · intro h
    have hgo := storeBatchGo_ok F creds s 0 h
    simpa [store_credentials_batch] using hgo
  · intro pre key value post m hc hpre hn hm
    subst hc
    refine ⟨storeBatchGo_err_set F pre s 0 key value post m hpre hn hm, ?_⟩
    exact ⟨("Failed to store credential \x27").data, ("\x27: ").data ++ m.data,
      by simp [String.data_append]⟩
  · intro pre key value post m hc hpre hn
    subst hc
    exact storeBatchGo_err_new F pre s 0 key value post m hpre hn

/-- Fault model where `set_password` fails only for key `B`. -/
def failB : FaultModel :=
  { newFault := fun _ => none
    setFault := fun k _ => if k = ("B") then some ("down") else none
    getFault := fun _ => none
    delFault := fun _ => none }

/-- Witness for C2 (amended), on the spec scenario: storing `A`, `B`, `C`
where `B` is forced to fail leaves `A` stored, does not store `C`, and the
error names `B`. -/
theorem store_credentials_batch_spec_witness :
    store_credentials_batch failB []
        [(("A"), ("1")), (("B"), ("2")), (("C"), ("3"))] =
      (Except.error
        (("Failed to store credential \x27") ++ ("B") ++ ("\x27: ") ++ ("down")),
       kSetAll [] [(("A"), ("1"))]) ∧
    occursIn ("B")
      (("Failed to store credential \x27") ++ ("B") ++ ("\x27: ") ++ ("down")) :=
  (store_credentials_batch_spec failB []
      [(("A"), ("1")), (("B"), ("2")), (("C"), ("3"))]).2.1
    [(("A"), ("1"))] ("B") ("2") [(("C"), ("3"))] ("down") rfl
    (by
      intro p hp
      simp only [List.mem_singleton] at hp
      subst hp
      exact ⟨rfl, rfl⟩)
    rfl rfl

/-- Counterexample to C3 as stated: when the keyring entry for key `"zzz"`
cannot be constructed, `store_credential` returns an error message that
contains the backend text but not the offending key. -/
theorem error_message_key_counterexample :
    (store_credential newDown [] ("zzz") ("v")).1 =
      Except.error ("Failed to create keyring entry: boom") ∧
    ¬ occursIn ("zzz") ("Failed to create keyring entry: boom") := by
  constructor
  · rfl
  · intro h
    have hz := occursIn_mem ("zzz") ("Failed to create keyring entry: boom") h
      ('z') (by decide)
    revert hz
    decide

theorem storeBatchGo_err_msg (F : FaultModel) (creds : List (String × String)) :
    ∀ s count msg, (storeBatchGo F s count creds).1 = Except.error msg →
      (∃ k v m, (k, v) ∈ creds ∧ F.newFault k = some m ∧
        msg = ("Failed to create keyring entry: ") ++ m) ∨
      (∃ k v m, (k, v) ∈ creds ∧ F.setFault k v = some m ∧
        msg = ("Failed to store credential \x27") ++ k ++ ("\x27: ") ++ m) := by
  induction creds with
  | nil => intro s count msg h; simp [storeBatchGo] at h
  | cons hd rest ih =>
    intro s count msg h
    obtain ⟨key, value⟩ := hd
    cases hn : F.newFault key with
    | some m =>
      left
      simp only [storeBatchGo, ksNewEntry, hn, KeyringError.display] at h
      obtain ⟨rfl⟩ : ("Failed to create keyring entry: ") ++ m = msg := by
        simpa using h
      exact ⟨key, value, m, List.mem_cons_self _ _, hn, rfl⟩
    | none =>
      cases hf : F.setFault key value with
      | some m =>
        right
        simp only [storeBatchGo, ksNewEntry, ksSet, hn, hf,
          KeyringError.display] at h
        obtain ⟨rfl⟩ :
            ("Failed to store credential \x27") ++ key ++ ("\x27: ") ++ m = msg := by
          simpa using h
        exact ⟨key, value, m, List.mem_cons_self _ _, hf, rfl⟩
      | none =>
        have h2 : (storeBatchGo F (kSet s key value) (count + 1) rest).1 =
            Except.error msg := by
          simp only [storeBatchGo, ksNewEntry, ksSet, hn, hf] at h
          exact h
        rcases ih (kSet s key value) (count + 1) msg h2 with
          ⟨k, v, m, hkv, hfa, hmsg⟩ | ⟨k, v, m, hkv, hfa, hmsg⟩
        · exact Or.inl ⟨k, v, m, List.mem_cons_of_mem _ hkv, hfa, hmsg⟩
        · exact Or.inr ⟨k, v, m, List.mem_cons_of_mem _ hkv, hfa, hmsg⟩

theorem getBatchGo_err_msg (F : FaultModel) (s : Store) (keys : List String) :
    ∀ acc msg, getBatchGo F s acc keys = Except.error msg →
      (∃ k m, k ∈ keys ∧ F.newFault k = some m ∧
        msg = ("Failed to create keyring entry: ") ++ m) ∨
      (∃ k m, k ∈ keys ∧ F.getFault k = some m ∧
        msg = ("Failed to retrieve credential \x27") ++ k ++ ("\x27: ") ++ m) := by
  induction keys with
  | nil => intro acc msg h; simp [getBatchGo] at h
  | cons key rest ih =>
    intro acc msg h
    cases hn : F.newFault key with
    | some m =>
      left
      simp only [getBatchGo, ksNewEntry, hn, KeyringError.display] at h
      obtain ⟨rfl⟩ : ("Failed to create keyring entry: ") ++ m = msg := by
        simpa using h
      exact ⟨key, m, List.mem_cons_self _ _, hn, rfl⟩
    | none =>
      cases hg : F.getFault key with
      | some m =>
        right
        simp only [getBatchGo, ksNewEntry, ksGet, hn, hg,
          KeyringError.display] at h
        obtain ⟨rfl⟩ :
            ("Failed to retrieve credential \x27") ++ key ++ ("\x27: ") ++ m = msg := by
          simpa using h
        exact ⟨key, m, List.mem_cons_self _ _, hg, rfl⟩
      | none =>
        cases hl : kLookup s key with
        | some v =>
          have h2 : getBatchGo F s (kSet acc key v) rest = Except.error msg := by
            simp only [getBatchGo, ksNewEntry, ksGet, hn, hg, hl] at h
            exact h
          rcases ih (kSet acc key v) msg h2 with
            ⟨k, m, hk, hfa, hmsg⟩ | ⟨k, m, hk, hfa, hmsg⟩
          · exact Or.inl ⟨k, m, List.mem_cons_of_mem _ hk, hfa, hmsg⟩
          · exact Or.inr ⟨k, m, List.mem_cons_of_mem _ hk, hfa, hmsg⟩
        | none =>
          have h2 : getBatchGo F s acc rest = Except.error msg := by
            simp only [getBatchGo, ksNewEntry, ksGet, hn, hg, hl] at h
            exact h
          rcases ih acc msg h2 with
            ⟨k, m, hk, hfa, hmsg⟩ | ⟨k, m, hk, hfa, hmsg⟩
          · exact Or.inl ⟨k, m, List.mem_cons_of_mem _ hk, hfa, hmsg⟩
          · exact Or.inr ⟨k, m, List.mem_cons_of_mem _ hk, hfa, hmsg⟩

theorem deleteBatchGo_err_msg (F : FaultModel) (keys : List String) :
    ∀ s count msg, (deleteBatchGo F s count keys).1 = Except.error msg →
      (∃ k m, k ∈ keys ∧ F.newFault k = some m ∧
        msg = ("Failed to create keyring entry: ") ++ m) ∨
      (∃ k m, k ∈ keys ∧ F.delFault k = some m ∧
        msg = ("Failed to delete credential \x27") ++ k ++ ("\x27: ") ++ m) := by
  induction keys with
  | nil => intro s count msg h; simp [deleteBatchGo] at h
  | cons key rest ih =>
    intro s count msg h
    cases hn : F.newFault key with
    | some m =>
      left
      simp only [deleteBatchGo, ksNewEntry, hn, KeyringError.display] at h
      obtain ⟨rfl⟩ : ("Failed to create keyring entry: ") ++ m = msg := by
        simpa using h
      exact ⟨key, m, List.mem_cons_self _ _, hn, rfl⟩
    | none =>
      cases hd : F.delFault key with
      | some m =>
        right
        simp only [deleteBatchGo, ksNewEntry, ksDelete, hn, hd,
          KeyringError.display] at h
        obtain ⟨rfl⟩ :
            ("Failed to delete credential \x27") ++ key ++ ("\x27: ") ++ m = msg := by
          simpa using h
        exact ⟨key, m, List.mem_cons_self _ _, hd, rfl⟩
      | none =>
        cases hl : kLookup s key with
        | some v =>
          have h2 : (deleteBatchGo F (kRemove s key) (count + 1) rest).1 =
              Except.error msg := by
            simp only [deleteBatchGo, ksNewEntry, ksDelete, hn, hd, hl] at h
            exact h
          rcases ih (kRemove s key) (count + 1) msg h2 with
            ⟨k, m, hk, hfa, hmsg⟩ | ⟨k, m, hk, hfa, hmsg⟩
          · exact Or.inl ⟨k, m, List.mem_cons_of_mem _ hk, hfa, hmsg⟩
          · exact Or.inr ⟨k, m, List.mem_cons_of_mem _ hk, hfa, hmsg⟩
        | none =>
          have h2 : (deleteBatchGo F s count rest).1 = Except.error msg := by
            simp only [deleteBatchGo, ksNewEntry, ksDelete, hn, hd, hl] at h
            exact h
          rcases ih s count msg h2 with
            ⟨k, m, hk, hfa, hmsg⟩ | ⟨k, m, hk, hfa, hmsg⟩
          · exact Or.inl ⟨k, m, List.mem_cons_of_mem _ hk, hfa, hmsg⟩
          · exact Or.inr ⟨k, m, List.mem_cons_of_mem _ hk, hfa, hmsg⟩

/-- C3 (amended): every error result of any of the six commands carries the
underlying backend error text; errors raised when the keystore write, read or
delete itself fails additionally contain the offending key (for the batch
commands, a key from the input sequence); the error raised when the keyring
entry cannot be constructed carries the backend text but not the key. -/
theorem error_message_contents (F : FaultModel) (s : Store) (key value : String)
    (creds : List (String × String)) (keys : List String) :
    (∀ msg, (store_credential F s key value).1 = Except.error msg →
      (∃ m, F.newFault key = some m ∧
        msg = ("Failed to create keyring entry: ") ++ m ∧ occursIn m msg) ∨
      (∃ m, F.setFault key value = some m ∧
        msg = ("Failed to store credential \x27") ++ key ++ ("\x27: ") ++ m ∧
        occursIn key msg ∧ occursIn m msg)) ∧
    (∀ msg, get_credential F s key = Except.error msg →
      (∃ m, F.newFault key = some m ∧
        msg = ("Failed to create keyring entry: ") ++ m ∧ occursIn m msg) ∨
      (∃ m, F.getFault key = some m ∧
        msg = ("Failed to retrieve credential \x27") ++ key ++ ("\x27: ") ++ m ∧
        occursIn key msg ∧ occursIn m msg)) ∧
    (∀ msg, (delete_credential F s key).1 = Except.error msg →
      (∃ m, F.newFault key = some m ∧
        msg = ("Failed to create keyring entry: ") ++ m ∧ occursIn m msg) ∨
      (∃ m, F.delFault key = some m ∧
        msg = ("Failed to delete credential \x27") ++ key ++ ("\x27: ") ++ m ∧
        occursIn key msg ∧ occursIn m msg)) ∧
    (∀ msg, (store_credentials_batch F s creds).1 = Except.error msg →
      (∃ k v m, (k, v) ∈ creds ∧ F.newFault k = some m ∧
        msg = ("Failed to create keyring entry: ") ++ m ∧ occursIn m msg) ∨
      (∃ k v m, (k, v) ∈ creds ∧ F.setFault k v = some m ∧
        msg = ("Failed to store credential \x27") ++ k ++ ("\x27: ") ++ m ∧
        occursIn k msg ∧ occursIn m msg)) ∧
    (∀ msg, get_credentials_batch F s keys = Except.error msg →
      (∃ k m, k ∈ keys ∧ F.newFault k = some m ∧
        msg = ("Failed to create keyring entry: ") ++ m ∧ occursIn m msg) ∨
      (∃ k m, k ∈ keys ∧ F.getFault k = some m ∧
        msg = ("Failed to retrieve credential \x27") ++ k ++ ("\x27: ") ++ m ∧
        occursIn k msg ∧ occursIn m msg)) ∧
    (∀ msg, (delete_credentials_batch F s keys).1 = Except.error msg →
      (∃ k m, k ∈ keys ∧ F.newFault k = some m ∧
        msg = ("Failed to create keyring entry: ") ++ m ∧ occursIn m msg) ∨
      (∃ k m, k ∈ keys ∧ F.delFault k = some m ∧
        msg = ("Failed to delete credential \x27") ++ k ++ ("\x27: ") ++ m ∧
        occursIn k msg ∧ occursIn m msg)) := by
  refine ⟨?_, ?_, ?_, ?_, ?_, ?_⟩
  · intro msg hmsg
    cases hn : F.newFault key with
    | some m =>
      left
      simp only [store_credential, ksNewEntry, hn, KeyringError.display] at hmsg
      obtain ⟨rfl⟩ : ("Failed to create keyring entry: ") ++ m = msg := by
        simpa using hmsg
      exact ⟨m, rfl, rfl,
        ⟨("Failed to create keyring entry: ").data, [],
          by simp [String.data_append]⟩⟩
    | none =>
      right
      cases hf : F.setFault key value with
      | some m =>
        simp only [store_credential, ksNewEntry, ksSet, hn, hf,
          KeyringError.display] at hmsg
        obtain ⟨rfl⟩ :
            ("Failed to store credential \x27") ++ key ++ ("\x27: ") ++ m = msg := by
          simpa using hmsg
        refine ⟨m, rfl, rfl, ?_, ?_⟩
        · exact ⟨("Failed to store credential \x27").data,
            ("\x27: ").data ++ m.data, by simp [String.data_append]⟩
        · exact ⟨("Failed to store credential \x27").data ++ key.data ++
            ("\x27: ").data, [], by simp [String.data_append]⟩
      | none =>
        simp [store_credential, ksNewEntry, ksSet, hn, hf] at hmsg
  · intro msg hmsg
    cases hn : F.newFault key with
    | some m =>
      left
      simp only [get_credential, ksNewEntry, hn, KeyringError.display] at hmsg
      obtain ⟨rfl⟩ : ("Failed to create keyring entry: ") ++ m = msg := by
        simpa using hmsg
      exact ⟨m, rfl, rfl,
        ⟨("Failed to create keyring entry: ").data, [],
          by simp [String.data_append]⟩⟩
    | none =>
      right
      cases hf : F.getFault key with
      | some m =>
        simp only [get_credential, ksNewEntry, ksGet, hn, hf,
          KeyringError.display] at hmsg
        obtain ⟨rfl⟩ :
            ("Failed to retrieve credential \x27") ++ key ++ ("\x27: ") ++ m = msg := by
          simpa using hmsg
        refine ⟨m, rfl, rfl, ?_, ?_⟩
        · exact ⟨("Failed to retrieve credential \x27").data,
            ("\x27: ").data ++ m.data, by simp [String.data_append]⟩
        · exact ⟨("Failed to retrieve credential \x27").data ++ key.data ++
            ("\x27: ").data, [], by simp [String.data_append]⟩
      | none =>
        cases hl : kLookup s key with
        | some v => simp [get_credential, ksNewEntry, ksGet, hn, hf, hl] at hmsg
        | none => simp [get_credential, ksNewEntry, ksGet, hn, hf, hl] at hmsg
  · intro msg hmsg
    cases hn : F.newFault key with
    | some m =>
      left
      simp only [delete_credential, ksNewEntry, hn, KeyringError.display] at hmsg
      obtain ⟨rfl⟩ : ("Failed to create keyring entry: ") ++ m = msg := by
        simpa using hmsg
      exact ⟨m, rfl, rfl,
        ⟨("Failed to create keyring entry: ").data, [],
          by simp [String.data_append]⟩⟩
    | none =>
      right
      cases hf : F.delFault key with
      | some m =>
        simp only [delete_credential, ksNewEntry, ksDelete, hn, hf,
          KeyringError.display] at hmsg
        obtain ⟨rfl⟩ :
            ("Failed to delete credential \x27") ++ key ++ ("\x27: ") ++ m = msg := by
          simpa using hmsg
        refine ⟨m, rfl, rfl, ?_, ?_⟩
        · exact ⟨("Failed to delete credential \x27").data,
            ("\x27: ").data ++ m.data, by simp [String.data_append]⟩
        · exact ⟨("Failed to delete credential \x27").data ++ key.data ++
            ("\x27: ").data, [], by simp [String.data_append]⟩
      | none =>
        cases hl : kLookup s key with
        | some v =>
          simp [delete_credential, ksNewEntry, ksDelete, hn, hf, hl] at hmsg
        | none =>
          simp [delete_credential, ksNewEntry, ksDelete, hn, hf, hl] at hmsg
  · intro msg hmsg
    rcases storeBatchGo_err_msg F creds s 0 msg hmsg with
      ⟨k, v, m, hkv, hfa, rfl⟩ | ⟨k, v, m, hkv, hfa, rfl⟩
    · exact Or.inl ⟨k, v, m, hkv, hfa, rfl,
        ⟨("Failed to create keyring entry: ").data, [],
          by simp [String.data_append]⟩⟩
    · refine Or.inr ⟨k, v, m, hkv, hfa, rfl, ?_, ?_⟩
      · exact ⟨("Failed to store credential \x27").data,
          ("\x27: ").data ++ m.data, by simp [String.data_append]⟩
      · exact ⟨("Failed to store credential \x27").data ++ k.data ++
          ("\x27: ").data, [], by simp [String.data_append]⟩
  · intro msg hmsg
    rcases getBatchGo_err_msg F s keys [] msg hmsg with
      ⟨k, m, hk, hfa, rfl⟩ | ⟨k, m, hk, hfa, rfl⟩
    · exact Or.inl ⟨k, m, hk, hfa, rfl,
        ⟨("Failed to create keyring entry: ").data, [],
          by simp [String.data_append]⟩⟩
    · refine Or.inr ⟨k, m, hk, hfa, rfl, ?_, ?_⟩
      · exact ⟨("Failed to retrieve credential \x27").data,
          ("\x27: ").data ++ m.data, by simp [String.data_append]⟩
      · exact ⟨("Failed to retrieve credential \x27").data ++ k.data ++
          ("\x27: ").data, [], by simp [String.data_append]⟩
  · intro msg hmsg
    rcases deleteBatchGo_err_msg F keys s 0 msg hmsg with
      ⟨k, m, hk, hfa, rfl⟩ | ⟨k, m, hk, hfa, rfl⟩
    · exact Or.inl ⟨k, m, hk, hfa, rfl,
        ⟨("Failed to create keyring entry: ").data, [],
          by simp [String.data_append]⟩⟩
    · refine Or.inr ⟨k, m, hk, hfa, rfl, ?_, ?_⟩
      · exact ⟨("Failed to delete credential \x27").data,
          ("\x27: ").data ++ m.data, by simp [String.data_append]⟩
      · exact ⟨("Failed to delete credential \x27").data ++ k.data ++
          ("\x27: ").data, [], by simp [String.data_append]⟩

/-- Witness for C3 (amended): a failing `set_password` on a concrete key
produces a message containing the key and the backend text. -/
theorem error_message_contents_witness :
    (∃ m, newDown.newFault ("k") = some m ∧
      (("Failed to create keyring entry: ") ++ ("boom")) =
        ("Failed to create keyring entry: ") ++ m ∧
      occursIn m (("Failed to create keyring entry: ") ++ ("boom"))) ∨
    (∃ m, newDown.setFault ("k") ("v") = some m ∧
      (("Failed to create keyring entry: ") ++ ("boom")) =
        ("Failed to store credential \x27") ++ ("k") ++ ("\x27: ") ++ m ∧
      occursIn ("k") (("Failed to create keyring entry: ") ++ ("boom")) ∧
      occursIn m (("Failed to create keyring entry: ") ++ ("boom"))) :=
  (error_message_contents newDown [] ("k") ("v") [] []).1
    (("Failed to create keyring entry: ") ++ ("boom")) rfl

theorem resOk_iff {α : Type} (e : Except String α) :
    resOk e = true ↔ ∃ a, e = Except.ok a := by
  cases e <;> simp [resOk]

/-- The backend raises no fault when reading the key `k`. -/
def getOkAt (F : FaultModel) (k : String) : Prop :=
  F.newFault k = none ∧ F.getFault k = none

theorem getBatchGo_ok (F : FaultModel) (s : Store) (keys : List String) :
    ∀ acc, (∀ k ∈ keys, getOkAt F k) →
    ∃ r, getBatchGo F s acc keys = Except.ok r ∧
      ∀ k2, kLookup r k2 =
        if k2 ∈ keys ∧ (kLookup s k2).isSome = true then kLookup s k2
        else kLookup acc k2 := by
  induction keys with
  | nil =>
    intro acc _
    exact ⟨acc, rfl, by simp⟩
  | cons key rest ih =>
    intro acc h
    obtain ⟨hn, hg⟩ := h _ (List.mem_cons_self _ _)
    have hrest := fun acc2 => ih acc2 (fun k hk => h k (List.mem_cons_of_mem _ hk))
    cases hl : kLookup s key with
    | some v =>
      obtain ⟨r, hr, hmap⟩ := hrest (kSet acc key v)
      refine ⟨r, ?_, ?_⟩
      · simp only [getBatchGo, ksNewEntry, ksGet, hn, hg, hl]
        exact hr
      · intro k2
        by_cases hk : k2 = key
        · subst hk
          rw [hmap k2]
          by_cases hmem : k2 ∈ rest <;>
            simp [hmem, hl, kLookup_kSet_self, List.mem_cons]
        · rw [hmap k2, kLookup_kSet_other acc key v k2 hk]
          simp [List.mem_cons, hk]
    | none =>
      obtain ⟨r, hr, hmap⟩ := hrest acc
      refine ⟨r, ?_, ?_⟩
      · simp only [getBatchGo, ksNewEntry, ksGet, hn, hg, hl]
        exact hr
      · intro k2
        by_cases hk : k2 = key
        · subst hk
          rw [hmap k2]
          simp [List.mem_cons, hl]
        · rw [hmap k2]
          simp [List.mem_cons, hk]

theorem getBatchGo_ok_iff (F : FaultModel) (s : Store) (keys : List String) :
    ∀ acc, resOk (getBatchGo F s acc keys) = true ↔ ∀ k ∈ keys, getOkAt F k := by
  induction keys with
  | nil => intro acc; simp [getBatchGo, resOk]
  | cons key rest ih =>
    intro acc
    cases hn : F.newFault key with
    | some m =>
      simp only [getBatchGo, ksNewEntry, hn, resOk]
      constructor
      · intro hfalse
        exact (Bool.false_ne_true hfalse).elim
      · intro hall
        obtain ⟨h1, _⟩ := hall key (List.mem_cons_self _ _)
        rw [hn] at h1
        exact Option.noConfusion h1
    | none =>
      cases hg : F.getFault key with
      | some m =>
        simp only [getBatchGo, ksNewEntry, ksGet, hn, hg, resOk]
        constructor
        · intro hfalse
          exact (Bool.false_ne_true hfalse).elim
        · intro hall
          obtain ⟨_, h2⟩ := hall key (List.mem_cons_self _ _)
          rw [hg] at h2
          exact Option.noConfusion h2
      | none =>
        have hko : getOkAt F key := ⟨hn, hg⟩
        cases hl : kLookup s key with
        | some v =>
          simp only [getBatchGo, ksNewEntry, ksGet, hn, hg, hl]
          rw [ih (kSet acc key v)]
          constructor
          · intro hrest k hk
            rcases List.mem_cons.mp hk with h1 | h2
            · subst h1; exact hko
            · exact hrest k h2
          · intro hall k hk
            exact hall k (List.mem_cons_of_mem _ hk)
        | none =>
          simp only [getBatchGo, ksNewEntry, ksGet, hn, hg, hl]
          rw [ih acc]
          constructor
          · intro hrest k hk
            rcases List.mem_cons.mp hk with h1 | h2
            · subst h1; exact hko
            · exact hrest k h2
          · intro hall k hk
            exact hall k (List.mem_cons_of_mem _ hk)

/-- C5: with no backend fault on any requested key, `get_credentials_batch`
returns a mapping that, viewed as a function, contains exactly the input keys
with a stored value, each mapped to its stored value, and nothing else; it
returns an error exactly when some requested key suffers an unexpected backend
failure, never on a mere not-found. -/
theorem get_credentials_batch_spec (F : FaultModel) (s : Store) (keys : List String) :
    ((∀ k ∈ keys, getOkAt F k) →
      ∃ r, get_credentials_batch F s keys = Except.ok r ∧
        ∀ k2, kLookup r k2 = if k2 ∈ keys then kLookup s k2 else none) ∧
    (resOk (get_credentials_batch F s keys) = true ↔ ∀ k ∈ keys, getOkAt F k) := by
  constructor
  · intro h
    obtain ⟨r, hr, hmap⟩ := getBatchGo_ok F s keys [] h
    refine ⟨r, hr, ?_⟩
    intro k2
    rw [hmap k2]
    by_cases hk : k2 ∈ keys
    · cases hls : kLookup s k2 with
      | some v => simp [hk, hls, kLookup]
      | none => simp [hk, hls, kLookup]
    · simp [hk, kLookup]
  · exact getBatchGo_ok_iff F s keys []

/-- Witness for C5 on the spec scenario: of the keys `A`, `B`, `C` only `A`
and `C` are stored, and the result maps exactly those two. -/
theorem get_credentials_batch_spec_witness :
    ∃ r, get_credentials_batch noFaults [(("A"), ("valueA")), (("C"), ("valueC"))]
        [("A"), ("B"), ("C")] = Except.ok r ∧
      ∀ k2, kLookup r k2 =
        if k2 ∈ [("A"), ("B"), ("C")] then
          kLookup [(("A"), ("valueA")), (("C"), ("valueC"))] k2
        else none :=
  (get_credentials_batch_spec noFaults [(("A"), ("valueA")), (("C"), ("valueC"))]
    [("A"), ("B"), ("C")]).1 (fun _ _ => ⟨rfl, rfl⟩)

/-- Reference computation following the spec's words for `DeleteBatch`: walk
the keys in sequence, remove each key that has a value and count it, skip the
absent ones. -/
def deleteBatchSpec : Store → List String → Nat × Store
  | s, [] => (0, s)
  | s, key :: rest =>
    match kLookup s key with
    | some _ =>
        ((deleteBatchSpec (kRemove s key) rest).1 + 1,
         (deleteBatchSpec (kRemove s key) rest).2)
    | none => deleteBatchSpec s rest

/-- The backend raises no fault when deleting the key `k`. -/
def delOkAt (F : FaultModel) (k : String) : Prop :=
  F.newFault k = none ∧ F.delFault k = none

theorem deleteBatchGo_ok (F : FaultModel) (keys : List String) :
    ∀ s count, (∀ k ∈ keys, delOkAt F k) →
    deleteBatchGo F s count keys =
      (Except.ok (count + (deleteBatchSpec s keys).1),
       (deleteBatchSpec s keys).2) := by
  induction keys with
  | nil => intro s count _; simp [deleteBatchGo, deleteBatchSpec]
  | cons key rest ih =>
    intro s count h
    obtain ⟨hn, hd⟩ := h _ (List.mem_cons_self _ _)
    have hrest := fun s2 c2 => ih s2 c2 (fun k hk => h k (List.mem_cons_of_mem _ hk))
    cases hl : kLookup s key with
    | some v =>
      have harith : count + 1 + (deleteBatchSpec (kRemove s key) rest).1 =
          count + ((deleteBatchSpec (kRemove s key) rest).1 + 1) := by omega
      simp only [deleteBatchGo, ksNewEntry, ksDelete, hn, hd, hl,
        hrest (kRemove s key) (count + 1), deleteBatchSpec, harith]
    | none =>
      simp only [deleteBatchGo, ksNewEntry, ksDelete, hn, hd, hl,
        hrest s count, deleteBatchSpec]

theorem deleteBatchGo_ok_iff (F : FaultModel) (keys : List String) :
    ∀ s count, resOk (deleteBatchGo F s count keys).1 = true ↔
      ∀ k ∈ keys, delOkAt F k := by
  induction keys with
  | nil => intro s count; simp [deleteBatchGo, resOk]
  | cons key rest ih =>
    intro s count
    cases hn : F.newFault key with
    | some m =>
      simp only [deleteBatchGo, ksNewEntry, hn, resOk]
      constructor
      · intro hfalse
        exact (Bool.false_ne_true hfalse).elim
      · intro hall
        obtain ⟨h1, _⟩ := hall key (List.mem_cons_self _ _)
        rw [hn] at h1
        exact Option.noConfusion h1
    | none =>
      cases hd : F.delFault key with
      | some m =>
        simp only [deleteBatchGo, ksNewEntry, ksDelete, hn, hd, resOk]
        constructor
        · intro hfalse
          exact (Bool.false_ne_true hfalse).elim
        · intro hall
          obtain ⟨_, h2⟩ := hall key (List.mem_cons_self _ _)
          rw [hd] at h2
          exact Option.noConfusion h2
      | none =>
        have hko : delOkAt F key := ⟨hn, hd⟩
        cases hl : kLookup s key with
        | some v =>
          simp only [deleteBatchGo, ksNewEntry, ksDelete, hn, hd, hl]
          rw [ih (kRemove s key) (count + 1)]
          constructor
          · intro hrest k hk
            rcases List.mem_cons.mp hk with h1 | h2
            · subst h1; exact hko
            · exact hrest k h2
          · intro hall k hk
            exact hall k (List.mem_cons_of_mem _ hk)
        | none =>
          simp only [deleteBatchGo, ksNewEntry, ksDelete, hn, hd, hl]
          rw [ih s count]
          constructor
          · intro hrest k hk
            rcases List.mem_cons.mp hk with h1 | h2
            · subst h1; exact hko
            · exact hrest k h2
          · intro hall k hk
            exact hall k (List.mem_cons_of_mem _ hk)

theorem deleteBatchGo_err (F : FaultModel) (pre : List String) :
    ∀ s count key post m, (∀ k ∈ pre, delOkAt F k) →
    (F.newFault key = some m ∨ (F.newFault key = none ∧ F.delFault key = some m)) →
    ∃ msg, deleteBatchGo F s count (pre ++ key :: post) =
      (Except.error msg, (deleteBatchSpec s pre).2) := by
  induction pre with
  | nil =>
    intro s count key post m _ hf
    rcases hf with hn | ⟨hn, hd⟩
    · exact ⟨("Failed to create keyring entry: ") ++ m,
        by simp [deleteBatchGo, ksNewEntry, hn, deleteBatchSpec,
          KeyringError.display]⟩
    · exact ⟨("Failed to delete credential \x27") ++ key ++ ("\x27: ") ++ m,
        by simp [deleteBatchGo, ksNewEntry, ksDelete, hn, hd, deleteBatchSpec,
          KeyringError.display]⟩
  | cons k0 rest ih =>
    intro s count key post m h hf
    obtain ⟨hn0, hd0⟩ := h _ (List.mem_cons_self _ _)
    cases hl : kLookup s k0 with
    | some v =>
      obtain ⟨msg, hmsg⟩ := ih (kRemove s k0) (count + 1) key post m
        (fun k hk => h k (List.mem_cons_of_mem _ hk)) hf
      refine ⟨msg, ?_⟩
      simp only [List.cons_append, deleteBatchGo, ksNewEntry, ksDelete,
        hn0, hd0, hl, deleteBatchSpec]
      exact hmsg
    | none =>
      obtain ⟨msg, hmsg⟩ := ih s count key post m
        (fun k hk => h k (List.mem_cons_of_mem _ hk)) hf
      refine ⟨msg, ?_⟩
      simp only [List.cons_append, deleteBatchGo, ksNewEntry, ksDelete,
        hn0, hd0, hl, deleteBatchSpec]
      exact hmsg

/-- C6: with no backend fault on any requested key,
`delete_credentials_batch` walks the keys in sequence, removes each stored key
and counts exactly those, skipping absent keys without counting or erroring;
it errors exactly when some key suffers an unexpected backend failure, and on
the first such failure it stops, leaving only the earlier keys deleted. -/
theorem delete_credentials_batch_spec (F : FaultModel) (s : Store) (keys : List String) :
    ((∀ k ∈ keys, delOkAt F k) →
      delete_credentials_batch F s keys =
        (Except.ok (deleteBatchSpec s keys).1, (deleteBatchSpec s keys).2)) ∧
    (resOk (delete_credentials_batch F s keys).1 = true ↔
      ∀ k ∈ keys, delOkAt F k) ∧
    (∀ pre key post m, keys = pre ++ key :: post →
      (∀ k ∈ pre, delOkAt F k) →
      (F.newFault key = some m ∨
        (F.newFault key = none ∧ F.delFault key = some m)) →
      ∃ msg, delete_credentials_batch F s keys =
        (Except.error msg, (deleteBatchSpec s pre).2)) := by
  refine ⟨?_, ?_, ?_⟩
  · intro h
    have hgo := deleteBatchGo_ok F keys s 0 h
    simpa [delete_credentials_batch] using hgo
  · exact deleteBatchGo_ok_iff F keys s 0
  · intro pre key post m hc hpre hf
    subst hc
    exact deleteBatchGo_err F pre s 0 key post m hpre hf

/-- Witness for C6 on the spec scenario: of the keys `A`, `B`, `C` only `A`
and `B` are stored; the batch delete reports the spec-side count, which
evaluates to `2`, and leaves the store empty. -/
theorem delete_credentials_batch_spec_witness :
    delete_credentials_batch noFaults [(("A"), ("1")), (("B"), ("2"))]
        [("A"), ("B"), ("C")] =
      (Except.ok
        (deleteBatchSpec [(("A"), ("1")), (("B"), ("2"))] [("A"), ("B"), ("C")]).1,
       (deleteBatchSpec [(("A"), ("1")), (("B"), ("2"))] [("A"), ("B"), ("C")]).2) ∧
    (deleteBatchSpec [(("A"), ("1")), (("B"), ("2"))] [("A"), ("B"), ("C")]).1 = 2 ∧
    (deleteBatchSpec [(("A"), ("1")), (("B"), ("2"))] [("A"), ("B"), ("C")]).2 = [] :=
  ⟨(delete_credentials_batch_spec noFaults [(("A"), ("1")), (("B"), ("2"))]
      [("A"), ("B"), ("C")]).1 (fun _ _ => ⟨rfl, rfl⟩), rfl, rfl⟩
